import Mathlib

/-!
Shallow embedding of the research_tracker pipeline (src/app) and proofs about it.

The embedding translates:
* `app/models.py` — the relational rows (journals, papers, authors, topics and the
  two association tables) as Lean structures; the database is a record of row lists.
* `app/data_service.py` — `DataService.extract_topics_from_title`,
  `get_or_create_author`, `get_or_create_topic` and `save_paper` (with its
  try/except rollback structure made explicit via an optional injected fault).
* `app/main.py` — the `format_authors` / `format_authors_filter` normalization,
  the `/scrape` orchestrator loop, and the author read-back path of `/api/papers`.
* `app/sync_endpoint.py` — the update-on-match branch of `sync_papers`.
* `app/scrapers.py` / `app/playwright_scrapers.py` — the synthetic ordering
  timestamp arithmetic (`page_num * 1000 + index` subtracted from a single batch
  anchor in `scrapers.py`, and from a per-record clock reading in
  `playwright_scrapers.py`).

Timestamps are modelled as integers (seconds); `datetime.utcnow() - timedelta(seconds=k)`
becomes integer subtraction.
-/

namespace ResearchTracker

/-! ## Data model (app/models.py) -/

/-- Row of the `journals` table. -/
structure JournalRow where
  id : Nat
  name : String
  abbreviation : String := ""
  deriving Repr, DecidableEq

/-- Row of the `papers` table.  `section` is a Lean keyword, hence `section_`. -/
structure PaperRow where
  id : Nat
  title : String
  abstract : Option String := none
  doi : Option String := none
  url : Option String := none
  pdf_url : Option String := none
  bibtex : Option String := none
  publication_date : Option Int := none
  accepted_date : Option Int := none
  scraped_date : Option Int := none
  section_ : Option String := none
  journal_id : Nat
  deriving Repr, DecidableEq

/-- Row of the `authors` table. -/
structure AuthorRow where
  id : Nat
  name : String
  deriving Repr, DecidableEq

/-- Row of the `topics` table. -/
structure TopicRow where
  id : Nat
  name : String
  deriving Repr, DecidableEq

/-- Row of the `paper_authors` association table, with explicit `author_order`. -/
structure PaperAuthorRow where
  paper_id : Nat
  author_id : Nat
  author_order : Nat
  deriving Repr, DecidableEq

/-- Row of the `paper_topics` association table. -/
structure PaperTopicRow where
  paper_id : Nat
  topic_id : Nat
  deriving Repr, DecidableEq

/-- The database: one list per table. -/
structure DB where
  journals : List JournalRow := []
  papers : List PaperRow := []
  authors : List AuthorRow := []
  topics : List TopicRow := []
  paper_authors : List PaperAuthorRow := []
  paper_topics : List PaperTopicRow := []
  deriving Repr, DecidableEq

/-- The `paper_data` dict handed to `DataService.save_paper`. -/
structure PaperData where
  title : String
  journal : String
  abstract : Option String := none
  doi : Option String := none
  url : Option String := none
  pdf_url : Option String := none
  bibtex : Option String := none
  publication_date : Option Int := none
  accepted_date : Option Int := none
  scraped_date : Option Int := none
  section_ : Option String := none
  authors : List String := []
  deriving Repr, DecidableEq

/-! ## Author-order normalization

`app/main.py` defines the same normalization twice — `format_authors_filter`
(lines 28–36, the Jinja filter) and `api_papers.format_authors` (lines 413–419) —
and `JRSSBScraper._extract_paper_from_container` (app/scrapers.py lines 977–979)
applies the identical expression at scrape time:

    if 'others' in author_names:
        author_names = [name for name in author_names if name != 'others'] + ['others']
-/

/-- `format_authors` / `format_authors_filter`: move the sentinel `"others"` to the end. -/
def formatAuthors (names : List String) : List String :=
  if names.contains "others" then
    names.filter (fun n => !(n == "others")) ++ ["others"]
  else
    names

/-! ## Topic tagger (app/data_service.py, `extract_topics_from_title`) -/

/-- Python's `str.lower()` restricted to the title, as a list of characters. -/
def lowerChars (s : String) : List Char :=
  s.data.map Char.toLower

/-- `needle` is a prefix of `hay` (character lists). -/
def isPrefixCL : List Char → List Char → Bool
  | [], _ => true
  | _ :: _, [] => false
  | a :: as, b :: bs => a == b && isPrefixCL as bs

/-- Python's substring test `needle in hay` on character lists. -/
def substrOf (needle : List Char) : List Char → Bool
  | [] => needle.isEmpty
  | c :: rest => isPrefixCL needle (c :: rest) || substrOf needle rest

/-- The fixed `topic_keywords` table of `extract_topics_from_title`
(app/data_service.py lines 63–77), in dict insertion order. -/
def topicKeywords : List (String × List String) :=
  [("Machine Learning", ["machine learning", "neural network", "deep learning",
      "artificial intelligence", "ai", "classification", "regression",
      "supervised learning", "unsupervised learning"]),
   ("Bayesian Statistics", ["bayesian", "bayes", "mcmc", "posterior", "prior",
      "markov chain"]),
   ("Survival Analysis", ["survival", "hazard", "kaplan-meier", "cox", "time-to-event"]),
   ("Causal Inference", ["causal", "causality", "treatment effect", "propensity",
      "instrumental variable"]),
   ("High-Dimensional Statistics", ["high-dimensional", "sparse", "lasso", "ridge",
      "penalized", "regularization"]),
   ("Time Series", ["time series", "temporal", "forecasting", "autoregressive", "arima"]),
   ("Nonparametric Statistics", ["nonparametric", "kernel", "bandwidth", "smoothing"]),
   ("Computational Statistics", ["computational", "algorithm", "optimization",
      "simulation", "monte carlo"]),
   ("Biostatistics", ["biostatistics", "clinical trial", "medical", "epidemiology",
      "genetics"]),
   ("Econometrics", ["econometric", "economic", "panel data", "endogeneity"]),
   ("Statistical Learning", ["statistical learning", "cross-validation",
      "model selection", "prediction"]),
   ("Hypothesis Testing", ["testing", "p-value", "significance", "multiple testing"]),
   ("Experimental Design", ["experimental design", "randomization", "factorial",
      "design of experiments"])]

/-- Does some keyword of `kws` occur in the lowercased title `tl`? -/
def anyKeywordIn (tl : List Char) (kws : List String) : Bool :=
  kws.any (fun kw => substrOf kw.data tl)

/-- `DataService.extract_topics_from_title` (app/data_service.py lines 58–84):
collect, in table order, every topic label one of whose keywords occurs in the
lowercased title. -/
def extract_topics_from_title (title : String) : List String :=
  let tl := lowerChars title
  topicKeywords.foldl (fun acc p => if anyKeywordIn tl p.2 then acc ++ [p.1] else acc) []

/-! ## DataService get-or-create helpers and save_paper (app/data_service.py) -/

/-- A fresh primary key for a new row: one more than the largest id in use. -/
def nextId (ids : List Nat) : Nat :=
  ids.foldl max 0 + 1

/-- `DataService.get_or_create_author` (lines 40–47): look up by exact name,
create with a fresh id when absent.  Returns the (possibly extended) session
state and the author id. -/
def get_or_create_author (s : DB) (name : String) : DB × Nat :=
  match s.authors.find? (fun a => a.name == name) with
  | some a => (s, a.id)
  | none =>
    let i := nextId (s.authors.map (fun a => a.id))
    ({ s with authors := s.authors ++ [⟨i, name⟩] }, i)

/-- `DataService.get_or_create_topic` (lines 49–56). -/
def get_or_create_topic (s : DB) (name : String) : DB × Nat :=
  match s.topics.find? (fun t => t.name == name) with
  | some t => (s, t.id)
  | none =>
    let i := nextId (s.topics.map (fun t => t.id))
    ({ s with topics := s.topics ++ [⟨i, name⟩] }, i)

/-- ASCII whitespace stripped by Python's `str.strip()`. -/
def isSpaceChar (c : Char) : Bool :=
  c == ' ' || c == '\t' || c == '\n' || c == '\r' || c == '\x0b' || c == '\x0c'

/-- Python's `str.strip()`: drop whitespace from both ends. -/
def pyStrip (s : String) : String :=
  ⟨((s.data.dropWhile isSpaceChar).reverse.dropWhile isSpaceChar).reverse⟩

/-- The author loop of `save_paper` (lines 121–132): `enumerate` supplies the
order index over all entries; entries whose stripped name is empty are skipped
(the index still advances, as with Python's `enumerate`). -/
def attachAuthorsFrom (s : DB) (pid : Nat) (order : Nat) : List String → DB
  | [] => s
  | name :: rest =>
    if pyStrip name == "" then
      attachAuthorsFrom s pid (order + 1) rest
    else
      let pr := get_or_create_author s (pyStrip name)
      attachAuthorsFrom
        { pr.1 with paper_authors := pr.1.paper_authors ++ [⟨pid, pr.2, order⟩] }
        pid (order + 1) rest

/-- Attach all authors of a record to paper `pid` with `author_order` = list index. -/
def attachAuthors (s : DB) (pid : Nat) (names : List String) : DB :=
  attachAuthorsFrom s pid 0 names

/-- The topic loop of `save_paper` (lines 134–138). -/
def attachTopicsList (s : DB) (pid : Nat) : List String → DB
  | [] => s
  | t :: rest =>
    let pr := get_or_create_topic s t
    attachTopicsList { pr.1 with paper_topics := pr.1.paper_topics ++ [⟨pid, pr.2⟩] } pid rest

/-- Detect topics from the title and attach them to paper `pid`. -/
def attachTopics (s : DB) (pid : Nat) (title : String) : DB :=
  attachTopicsList s pid (extract_topics_from_title title)

/-- Executable no-duplicates check on a list (used for integrity constraints). -/
def listNodup {α : Type} [DecidableEq α] : List α → Bool
  | [] => true
  | x :: xs => if x ∈ xs then false else listNodup xs

/-- The unique constraint on `papers.doi` (app/models.py line 61): all non-null
DOIs are pairwise distinct. -/
def doiNodup (papers : List PaperRow) : Bool :=
  listNodup (papers.filterMap (fun p => p.doi))

/-- The composite primary key of `paper_authors` (app/models.py lines 9–15):
no duplicate `(paper_id, author_id)` pair. -/
def paPKNodup (pas : List PaperAuthorRow) : Bool :=
  listNodup (pas.map (fun pa => (pa.paper_id, pa.author_id)))

/-- The database-enforced constraints that the `save_paper` code path can
actually violate; a violation surfaces as an `IntegrityError` at flush/commit. -/
def integrityOk (s : DB) : Bool :=
  doiNodup s.papers && paPKNodup s.paper_authors

/-- The `Paper(...)` construction of `save_paper` (lines 103–115). -/
def mkPaper (pid : Nat) (r : PaperData) (jid : Nat) : PaperRow :=
  { id := pid, title := r.title, abstract := r.abstract, doi := r.doi, url := r.url,
    pdf_url := r.pdf_url, bibtex := r.bibtex, publication_date := r.publication_date,
    accepted_date := r.accepted_date, scraped_date := r.scraped_date,
    section_ := r.section_, journal_id := jid }

/-- Faults that can interrupt `save_paper` inside its `try` block: an exception
while resolving/attaching authors, while attaching topics, or at commit.  The
`except` handlers (lines 143–149) roll the session back in every case. -/
inductive Fault where
  | authorStep
  | topicStep
  | commitStep
  deriving Repr, DecidableEq

/-- The id `db.flush()` hands to the new paper (lines 117–118). -/
def stagedPaperId (db : DB) : Nat :=
  nextId (db.papers.map (fun p => p.id))

/-- The session state staged by the `try` block of `save_paper` when the record
is new: the paper row added (lines 103–118), then authors attached with their
order (lines 121–132), then detected topics attached (lines 134–138). -/
def stagedState (db : DB) (r : PaperData) (j : JournalRow) : DB :=
  attachTopics
    (attachAuthors { db with papers := db.papers ++ [mkPaper (stagedPaperId db) r j.id] }
      (stagedPaperId db) r.authors)
    (stagedPaperId db) r.title

/-- `DataService.save_paper` (app/data_service.py lines 86–149), with an optional
injected fault `f` marking the step at which an exception is raised.  All session
mutations before `commit` are staged (the committed database is the argument `db`),
so every exception path returns `(db, false)` — the rollback semantics of the
`except` handlers (lines 143–149).  An `IntegrityError` surfacing at flush/commit
is the `integrityOk` test of the final step. -/
def save_paper_fault (db : DB) (r : PaperData) (f : Option Fault) : DB × Bool :=
  match db.journals.find? (fun j => j.name == r.journal) with
  | none => (db, false)
  | some j =>
    match db.papers.find? (fun p => p.title == r.title && p.journal_id == j.id) with
    | some _ => (db, false)
    | none =>
      if f = some Fault.authorStep then (db, false) else
      if f = some Fault.topicStep then (db, false) else
      if f = some Fault.commitStep then (db, false) else
      if integrityOk (stagedState db r j) then (stagedState db r j, true) else (db, false)

/-- `DataService.save_paper` run without injected faults. -/
def save_paper (db : DB) (r : PaperData) : DB × Bool :=
  save_paper_fault db r none

/-! ## Synthetic ordering timestamps (app/scrapers.py, app/playwright_scrapers.py)

Both sites subtract the offset `p * 1000 + i` (page `p`, in-page index `i`)
from a clock reading, but they differ in where the clock is read:

* `JASAScraper.scrape_papers` (scrapers.py line 837) fixes `base_time =
  datetime.utcnow()` once per batch and assigns (line 858)
  `scraped_date = base_time - timedelta(seconds=order_offset)` — one anchor.
* `PlaywrightJASAScraper._extract_paper_from_container` (playwright_scrapers.py
  line 182) evaluates `datetime.utcnow() - timedelta(seconds=order_offset)`
  inside the per-record extractor, so every record gets its own, possibly
  later, clock reading.

Time is modelled in integer seconds. -/

/-- `page_order` / `order_offset`: `page_num * 1000 + index`. -/
def pageOrder (page idx : Nat) : Nat :=
  page * 1000 + idx

/-- The synthetic `scraped_date` of `JASAScraper.scrape_papers` for the record
at `(page, idx)`: the single batch anchor `base` minus the offset. -/
def jasaScrapedDate (base : Int) (page idx : Nat) : Int :=
  base - (pageOrder page idx : Int)

/-- The synthetic `scraped_date` of the playwright JASA extractor for the
record at `(page, idx)`: `clock` is the `datetime.utcnow()` reading taken while
THIS record is extracted (playwright_scrapers.py line 182), not a shared batch
anchor. -/
def playwrightScrapedDate (clock : Int) (page idx : Nat) : Int :=
  clock - (pageOrder page idx : Int)

/-! ## Orchestrator (app/main.py, `trigger_scrape`, lines 351–385) -/

/-- One journal scraper as the orchestrator sees it: a name and the outcome of
`scraper.scrape_papers()` — either a list of records or a raised exception
carrying a message. -/
structure Scraper where
  journal_name : String
  result : Except String (List PaperData)

/-- The inner save loop of `trigger_scrape` (lines 367–371): save every record,
counting the ones that were new. -/
def saveAll (db : DB) : List PaperData → DB × Nat
  | [] => (db, 0)
  | r :: rest =>
    let pr := save_paper db r
    let rec' := saveAll pr.1 rest
    (rec'.1, (if pr.2 then 1 else 0) + rec'.2)

/-- The per-scraper loop of `trigger_scrape` (lines 361–378): a raising scraper
contributes an `"Error: <message>"` entry and the loop continues; a succeeding
one contributes `"Added N new papers (found M total)"`. -/
def runScrapers (db : DB) : List Scraper → DB × List (String × String) × Nat
  | [] => (db, [], 0)
  | s :: rest =>
    match s.result with
    | Except.error msg =>
      let pr := runScrapers db rest
      (pr.1, (s.journal_name, "Error: " ++ msg) :: pr.2.1, pr.2.2)
    | Except.ok ps =>
      let saved := saveAll db ps
      let pr := runScrapers saved.1 rest
      (pr.1,
       (s.journal_name,
        "Added " ++ toString saved.2 ++ " new papers (found " ++ toString ps.length
          ++ " total)") :: pr.2.1,
       pr.2.2 + saved.2)

/-- `trigger_scrape` (lines 351–385): run every scraper, then append the
aggregate `"Summary"` entry; the endpoint returns normally. -/
def trigger_scrape (db : DB) (scrapers : List Scraper) :
    DB × List (String × String) × Nat :=
  let pr := runScrapers db scrapers
  (pr.1,
   pr.2.1 ++ [("Summary",
     "Total: " ++ toString pr.2.2 ++ " new papers added across all journals")],
   pr.2.2)

/-! ## Query-side author read-back (app/models.py line 72 and app/main.py 413–424)

`Paper.authors` is ordered by `paper_authors.author_order`; `api_papers` then
applies `format_authors`. -/

/-- Stable insertion by `author_order` (the ORDER BY of the relationship). -/
def insertByOrder (x : PaperAuthorRow) : List PaperAuthorRow → List PaperAuthorRow
  | [] => [x]
  | y :: ys =>
    if x.author_order ≤ y.author_order then x :: y :: ys else y :: insertByOrder x ys

/-- Sort association rows by `author_order`. -/
def sortByOrder : List PaperAuthorRow → List PaperAuthorRow
  | [] => []
  | x :: xs => insertByOrder x (sortByOrder xs)

/-- The ORM `paper.authors` list for paper `pid`: association rows of the paper,
ordered by `author_order`, resolved to author names. -/
def paperAuthorNames (db : DB) (pid : Nat) : List String :=
  (sortByOrder (db.paper_authors.filter (fun pa => pa.paper_id == pid))).filterMap
    (fun pa => (db.authors.find? (fun a => a.id == pa.author_id)).map (fun a => a.name))

/-- The author list served by `/api/papers` for paper `pid`: the ordered names
passed through `format_authors`. -/
def apiAuthors (db : DB) (pid : Nat) : List String :=
  formatAuthors (paperAuthorNames db pid)

/-! ## Sync endpoint update-on-match (app/sync_endpoint.py, lines 46–56)

The incoming `publication_date` is a string field: absent/empty (falsy), present
but unparseable by `datetime.fromisoformat` (the `except: pass` branch), or
parsing to a date.  Modelled as `Option (Option Int)`. -/

/-- The match branch of `sync_papers`: update the stored paper's
`publication_date` only when the incoming value is present, parses, and differs
from the stored one; report whether an update was counted. -/
def syncUpdateExisting (p : PaperRow) (incoming : Option (Option Int)) :
    PaperRow × Bool :=
  match incoming with
  | none => (p, false)
  | some none => (p, false)
  | some (some d) =>
    if p.publication_date = some d then (p, false)
    else ({ p with publication_date := some d }, true)

/-! ## Theorems -/

/-- Folding the topic table adds nothing when no keyword list matches. -/
theorem extractFoldlConst (tl : List Char) (kws : List (String × List String)) :
    ∀ acc : List String, (∀ pr ∈ kws, anyKeywordIn tl pr.2 = false) →
      kws.foldl (fun acc p => if anyKeywordIn tl p.2 then acc ++ [p.1] else acc) acc = acc := by
  induction kws with
  | nil => intro acc _; rfl
  | cons hd rest ih =>
    intro acc h
    have h0 : anyKeywordIn tl hd.2 = false := h hd (List.mem_cons_self _ _)
    simp only [List.foldl_cons, h0, Bool.false_eq_true, if_false]
    exact ih acc (fun pr hpr => h pr (List.mem_cons_of_mem _ hpr))

/-- Claim C5: whenever an author list contains the sentinel `"others"` anywhere,
the normalization places it last, keeps the remaining names in their relative
order (the lists agree after removing `"others"`), and is idempotent on its own
output. -/
theorem others_sentinel_normalization (l : List String) (h : "others" ∈ l) :
    (formatAuthors l).getLast? = some "others" ∧
    (formatAuthors l).filter (fun n => !(n == "others"))
      = l.filter (fun n => !(n == "others")) ∧
    formatAuthors (formatAuthors l) = formatAuthors l := by
  have hc : l.contains "others" = true := List.elem_eq_true_of_mem h
  unfold formatAuthors
  rw [if_pos hc]
  refine ⟨by simp, by simp [List.filter_append, List.filter_filter], ?_⟩
  have hc2 : (l.filter (fun n => !(n == "others")) ++ ["others"]).contains "others" = true :=
    List.elem_eq_true_of_mem (by simp)
  rw [if_pos hc2]
  simp [List.filter_append, List.filter_filter]

/-- Witness for C5 at `["A", "others", "B"]`. -/
theorem others_sentinel_normalization_witness :
    (formatAuthors ["A", "others", "B"]).getLast? = some "others" ∧
    (formatAuthors ["A", "others", "B"]).filter (fun n => !(n == "others"))
      = ["A", "others", "B"].filter (fun n => !(n == "others")) ∧
    formatAuthors (formatAuthors ["A", "others", "B"]) = formatAuthors ["A", "others", "B"] :=
  others_sentinel_normalization ["A", "others", "B"] (by decide)

/-- Counterexample to C1 as stated: the claim asserts a single batch anchor for
both cited sites, but the playwright extractor re-reads the clock per record.
With clock reading 0 while extracting page 0 position 0 and clock reading 1
(one second later) while extracting page 0 position 1, the two records of one
batch receive the SAME ordering timestamp — position 0's timestamp is not
later than position 1's, and the batch has a collision. -/
theorem ordering_timestamps_counterexample :
    playwrightScrapedDate 0 0 0 = playwrightScrapedDate 1 0 1 ∧
    ¬ playwrightScrapedDate 1 0 1 < playwrightScrapedDate 0 0 0 := by
  decide

/-- Claim C1 (amended): at the single-anchor site (`JASAScraper.scrape_papers`)
the synthetic `scraped_date` is unconditionally strictly decreasing in listing
position for in-capacity indices (below the 1000 page capacity), with no two
positions sharing a timestamp; at the playwright site, whose anchor is a
per-record clock reading, the strict decrease between an earlier listing
position (clock `c0`) and a later one (clock `c1`) holds exactly under the
drift bound `c1 - c0 < offset gap` — in particular whenever the clock readings
coincide. -/
theorem ordering_timestamps_amended :
    (∀ (base : Int) (p i q k : Nat), i < 1000 → k < 1000 →
      ((p < q ∨ (p = q ∧ i < k)) →
        jasaScrapedDate base q k < jasaScrapedDate base p i) ∧
      (¬(p = q ∧ i = k) → jasaScrapedDate base p i ≠ jasaScrapedDate base q k)) ∧
    (∀ (c0 c1 : Int) (p i q k : Nat), i < 1000 → k < 1000 →
      (p < q ∨ (p = q ∧ i < k)) →
      c1 - c0 < (pageOrder q k : Int) - (pageOrder p i : Int) →
      playwrightScrapedDate c1 q k < playwrightScrapedDate c0 p i) := by
  constructor
  · intro base p i q k hi hk
    constructor <;> intro h <;> simp only [jasaScrapedDate, pageOrder] <;> omega
  · intro c0 c1 p i q k hi hk hlt hdrift
    simp only [playwrightScrapedDate, pageOrder] at hdrift ⊢
    omega

/-- Witness for the amended C1: under one anchor, page 0 position 0 sorts
ahead of page 1 position 5; with per-record clocks that have not drifted,
page 0 position 0 sorts ahead of page 0 position 1. -/
theorem ordering_timestamps_amended_witness :
    (jasaScrapedDate 0 1 5 < jasaScrapedDate 0 0 0 ∧
     jasaScrapedDate 0 0 0 ≠ jasaScrapedDate 0 1 5) ∧
    playwrightScrapedDate 0 0 1 < playwrightScrapedDate 0 0 0 :=
  ⟨⟨(ordering_timestamps_amended.1 0 0 0 1 5 (by decide) (by decide)).1
      (Or.inl (by decide)),
    (ordering_timestamps_amended.1 0 0 0 1 5 (by decide) (by decide)).2 (by decide)⟩,
   ordering_timestamps_amended.2 0 0 0 0 0 1 (by decide) (by decide)
     (Or.inr ⟨rfl, by decide⟩) (by decide)⟩

/-- Claim C7: the tagger finds at least "Bayesian Statistics" and
"High-Dimensional Statistics" in the given title, and — as a total keyword
containment function of the lowercased title — returns the empty list whenever
no keyword of the table occurs in the title. -/
theorem topic_tagger_containment :
    ("Bayesian Statistics"
        ∈ extract_topics_from_title "Bayesian Methods for Sparse Regression with MCMC" ∧
     "High-Dimensional Statistics"
        ∈ extract_topics_from_title "Bayesian Methods for Sparse Regression with MCMC") ∧
    ∀ title : String,
      (∀ pr ∈ topicKeywords, anyKeywordIn (lowerChars title) pr.2 = false) →
      extract_topics_from_title title = [] := by
  refine ⟨⟨by decide, by decide⟩, ?_⟩
  intro title h
  unfold extract_topics_from_title
  exact extractFoldlConst _ _ [] h

/-- Witness for C7's no-match hypothesis at the title "Zzz". -/
theorem topic_tagger_containment_witness :
    extract_topics_from_title "Zzz" = [] :=
  topic_tagger_containment.2 "Zzz" (by decide)

/-- `get_or_create_author` touches only the `authors` table. -/
theorem get_or_create_author_fields (s : DB) (n : String) :
    ((get_or_create_author s n).1).papers = s.papers ∧
    ((get_or_create_author s n).1).journals = s.journals ∧
    ((get_or_create_author s n).1).paper_authors = s.paper_authors := by
  unfold get_or_create_author
  cases s.authors.find? (fun a => a.name == n) <;> exact ⟨rfl, rfl, rfl⟩

/-- `get_or_create_topic` touches only the `topics` table. -/
theorem get_or_create_topic_fields (s : DB) (n : String) :
    ((get_or_create_topic s n).1).papers = s.papers ∧
    ((get_or_create_topic s n).1).journals = s.journals := by
  unfold get_or_create_topic
  cases s.topics.find? (fun t => t.name == n) <;> exact ⟨rfl, rfl⟩

/-- The author loop never changes the `papers` or `journals` tables. -/
theorem attachAuthorsFrom_fields (pid : Nat) :
    ∀ (ns : List String) (s : DB) (ord : Nat),
      (attachAuthorsFrom s pid ord ns).papers = s.papers ∧
      (attachAuthorsFrom s pid ord ns).journals = s.journals := by
  intro ns
  induction ns with
  | nil => intro s ord; exact ⟨rfl, rfl⟩
  | cons name rest ih =>
    intro s ord
    unfold attachAuthorsFrom
    by_cases h : (pyStrip name == "") = true
    · rw [if_pos h]; exact ih s (ord + 1)
    · rw [if_neg h]
      have hg := get_or_create_author_fields s (pyStrip name)
      refine ⟨?_, ?_⟩
      · rw [(ih _ (ord + 1)).1]; exact hg.1
      · rw [(ih _ (ord + 1)).2]; exact hg.2.1

/-- The topic loop never changes the `papers` or `journals` tables. -/
theorem attachTopicsList_fields (pid : Nat) :
    ∀ (ts : List String) (s : DB),
      (attachTopicsList s pid ts).papers = s.papers ∧
      (attachTopicsList s pid ts).journals = s.journals := by
  intro ts
  induction ts with
  | nil => intro s; exact ⟨rfl, rfl⟩
  | cons t rest ih =>
    intro s
    unfold attachTopicsList
    have hg := get_or_create_topic_fields s t
    refine ⟨?_, ?_⟩
    · rw [(ih _).1]; exact hg.1
    · rw [(ih _).2]; exact hg.2

/-- The staged session state keeps the committed `papers` plus the one new row,
and the `journals` table untouched. -/
theorem stagedState_fields (db : DB) (r : PaperData) (j : JournalRow) :
    (stagedState db r j).papers = db.papers ++ [mkPaper (stagedPaperId db) r j.id] ∧
    (stagedState db r j).journals = db.journals := by
  unfold stagedState attachTopics attachAuthors
  constructor
  · rw [(attachTopicsList_fields _ _ _).1, (attachAuthorsFrom_fields _ _ _ _).1]
  · rw [(attachTopicsList_fields _ _ _).2, (attachAuthorsFrom_fields _ _ _ _).2]

/-- Claim C3: `save_paper` is atomic — if an exception is raised at any step
after the staged paper insert (author resolution/attachment, topic attachment,
or commit, including an `IntegrityError`), the unit of work is rolled back: the
committed database is unchanged and the call returns `False`. -/
theorem save_paper_atomic_rollback (db : DB) (r : PaperData) (f : Option Fault)
    (h : f ≠ none) :
    save_paper_fault db r f = (db, false) := by
  match f with
  | none => exact absurd rfl h
  | some fv =>
    rcases hj : db.journals.find? (fun j => j.name == r.journal) with _ | j
    · simp only [save_paper_fault, hj]
    · rcases hp : db.papers.find? (fun p => p.title == r.title && p.journal_id == j.id)
        with _ | p
      · simp only [save_paper_fault, hj, hp]
        cases fv <;> simp
      · simp only [save_paper_fault, hj, hp]

/-- Witness for C3: a fault at the topic step leaves a one-journal database
untouched and reports `False`. -/
theorem save_paper_atomic_rollback_witness :
    save_paper_fault { journals := [{ id := 1, name := "J" }] }
        { title := "T", journal := "J" } (some Fault.topicStep)
      = ({ journals := [{ id := 1, name := "J" }] }, false) :=
  save_paper_atomic_rollback { journals := [{ id := 1, name := "J" }] }
    { title := "T", journal := "J" } (some Fault.topicStep) (by decide)

/-- The invariant of C10: every stored paper's `journal_id` refers to a stored
journal. -/
def journalRefsOk (db : DB) : Bool :=
  db.papers.all (fun p => db.journals.any (fun j => j.id == p.journal_id))

/-- Claim C10: a record whose `journal` field matches no stored journal name is
silently dropped — `save_paper` returns `False` with the database unchanged —
and consequently `save_paper` preserves the invariant that every stored paper
references a stored journal. -/
theorem unknown_journal_dropped (db : DB) (r : PaperData) :
    (db.journals.find? (fun j => j.name == r.journal) = none →
      save_paper db r = (db, false)) ∧
    (journalRefsOk db = true → journalRefsOk (save_paper db r).1 = true) := by
  constructor
  · intro h
    simp only [save_paper, save_paper_fault, h]
  · intro h
    rcases hj : db.journals.find? (fun j => j.name == r.journal) with _ | j
    · simp only [save_paper, save_paper_fault, hj]; exact h
    · rcases hp : db.papers.find? (fun p => p.title == r.title && p.journal_id == j.id)
        with _ | p
      · simp only [save_paper, save_paper_fault, hj, hp, reduceCtorEq, if_false]
        by_cases hint : integrityOk (stagedState db r j) = true
        · rw [if_pos hint]
          have hst := stagedState_fields db r j
          unfold journalRefsOk
          rw [hst.1, hst.2, List.all_append]
          unfold journalRefsOk at h
          rw [h, Bool.true_and, List.all_cons, List.all_nil, Bool.and_true]
          have hmem : j ∈ db.journals := List.mem_of_find?_eq_some hj
          exact List.any_eq_true.mpr ⟨j, hmem, by simp [mkPaper]⟩
        · rw [if_neg hint]; exact h
      · simp only [save_paper, save_paper_fault, hj, hp]; exact h

/-- Witness for C10: a record for an unknown journal is dropped, and the
reference invariant holds afterwards. -/
theorem unknown_journal_dropped_witness :
    save_paper { journals := [{ id := 1, name := "J" }] }
        { title := "T", journal := "Nope" }
      = ({ journals := [{ id := 1, name := "J" }] }, false) ∧
    journalRefsOk (save_paper { journals := [{ id := 1, name := "J" }] }
        { title := "T", journal := "Nope" }).1 = true :=
  ⟨(unknown_journal_dropped { journals := [{ id := 1, name := "J" }] }
      { title := "T", journal := "Nope" }).1 (by decide),
   (unknown_journal_dropped { journals := [{ id := 1, name := "J" }] }
      { title := "T", journal := "Nope" }).2 (by decide)⟩

/-- Appending an element already present breaks `listNodup`. -/
theorem listNodup_append_mem {α : Type} [DecidableEq α] (L : List α) (d : α) (h : d ∈ L) :
    listNodup (L ++ [d]) = false := by
  induction L with
  | nil => cases h
  | cons a L ih =>
    rw [List.cons_append]
    unfold listNodup
    by_cases ha : a ∈ L ++ [d]
    · rw [if_pos ha]
    · rw [if_neg ha]
      rcases List.mem_cons.mp h with h1 | h1
      · exact absurd (List.mem_append.mpr (Or.inr (by simp [h1]))) ha
      · exact ih h1

/-- Claim C2: if a `save_paper` call inserts (returns `True`), the immediately
repeated call with the same record finds the stored row by exact
`(title, journal_id)` lookup, returns `False` and leaves the database unchanged,
and exactly one stored paper carries that `(title, journal_id)`. -/
theorem save_paper_dedup (db db1 : DB) (r : PaperData)
    (hb : save_paper db r = (db1, true)) :
    save_paper db1 r = (db1, false) ∧
    ∃ j, db.journals.find? (fun jj => jj.name == r.journal) = some j ∧
      (db1.papers.filter (fun p => p.title == r.title && p.journal_id == j.id)).length = 1 := by
  rcases hj : db.journals.find? (fun jj => jj.name == r.journal) with _ | j
  · simp only [save_paper, save_paper_fault, hj, Prod.mk.injEq] at hb
    exact absurd hb.2 Bool.false_ne_true
  · rcases hp : db.papers.find? (fun p => p.title == r.title && p.journal_id == j.id)
      with _ | p
    · simp only [save_paper, save_paper_fault, hj, hp, reduceCtorEq, if_false] at hb
      by_cases hint : integrityOk (stagedState db r j) = true
      · rw [if_pos hint] at hb
        have hdb1 : stagedState db r j = db1 := (Prod.ext_iff.mp hb).1
        have hst := stagedState_fields db r j
        have hj1 : db1.journals.find? (fun jj => jj.name == r.journal) = some j := by
          rw [← hdb1, hst.2]; exact hj
        have hp1 : db1.papers.find? (fun p => p.title == r.title && p.journal_id == j.id)
            = some (mkPaper (stagedPaperId db) r j.id) := by
          rw [← hdb1, hst.1, List.find?_append, hp]
          simp [mkPaper]
        refine ⟨by simp only [save_paper, save_paper_fault, hj1, hp1], j, hj, ?_⟩
        have hfil : db.papers.filter (fun p => p.title == r.title && p.journal_id == j.id)
            = [] := by
          refine List.filter_eq_nil_iff.mpr (fun a ha => ?_)
          simpa using List.find?_eq_none.mp hp a ha
        rw [← hdb1, hst.1, List.filter_append, hfil]
        simp [mkPaper]
      · rw [if_neg hint] at hb
        exact absurd (Prod.ext_iff.mp hb).2 Bool.false_ne_true
    · simp only [save_paper, save_paper_fault, hj, hp, Prod.mk.injEq] at hb
      exact absurd hb.2 Bool.false_ne_true

/-- The database of the C2 witness: one journal, no papers. -/
def c2db : DB := { journals := [{ id := 1, name := "J" }] }

/-- The record of the C2 witness. -/
def c2rec : PaperData := { title := "T", journal := "J" }

/-- Witness for C2: saving the same record twice into a one-journal database
stores it exactly once and the second call reports a duplicate. -/
theorem save_paper_dedup_witness :
    save_paper (save_paper c2db c2rec).1 c2rec = ((save_paper c2db c2rec).1, false) ∧
    ∃ j, c2db.journals.find? (fun jj => jj.name == c2rec.journal) = some j ∧
      ((save_paper c2db c2rec).1.papers.filter
        (fun p => p.title == c2rec.title && p.journal_id == j.id)).length = 1 :=
  save_paper_dedup c2db (save_paper c2db c2rec).1 c2rec (by decide)

/-- Claim C9: the `papers.doi` unique constraint is respected — `save_paper`
preserves pairwise-distinct non-null DOIs, and a record whose DOI is already
stored under a different `(title, journal)` hits the integrity violation, is
rolled back, and is reported not-new (`False`). -/
theorem doi_unique_invariant :
    (∀ (db : DB) (r : PaperData), doiNodup db.papers = true →
        doiNodup ((save_paper db r).1).papers = true) ∧
    (∀ (db : DB) (r : PaperData) (j : JournalRow) (p : PaperRow) (d : String),
        db.journals.find? (fun jj => jj.name == r.journal) = some j →
        db.papers.find? (fun q => q.title == r.title && q.journal_id == j.id) = none →
        p ∈ db.papers → p.doi = some d → r.doi = some d →
        save_paper db r = (db, false)) := by
  constructor
  · intro db r h
    rcases hj : db.journals.find? (fun jj => jj.name == r.journal) with _ | j
    · simp only [save_paper, save_paper_fault, hj]; exact h
    · rcases hp : db.papers.find? (fun q => q.title == r.title && q.journal_id == j.id)
        with _ | p
      · simp only [save_paper, save_paper_fault, hj, hp, reduceCtorEq, if_false]
        by_cases hint : integrityOk (stagedState db r j) = true
        · rw [if_pos hint]
          exact Bool.and_elim_left hint
        · rw [if_neg hint]; exact h
      · simp only [save_paper, save_paper_fault, hj, hp]; exact h
  · intro db r j p d hj hp hmem hd hrd
    simp only [save_paper, save_paper_fault, hj, hp, reduceCtorEq, if_false]
    have hst := stagedState_fields db r j
    have hdois : ((stagedState db r j).papers).filterMap (fun q => q.doi)
        = db.papers.filterMap (fun q => q.doi) ++ [d] := by
      rw [hst.1, List.filterMap_append]
      simp [mkPaper, hrd]
    have hdmem : d ∈ db.papers.filterMap (fun q => q.doi) :=
      List.mem_filterMap.mpr ⟨p, hmem, hd⟩
    have hfalse : integrityOk (stagedState db r j) = false := by
      unfold integrityOk doiNodup
      rw [hdois, listNodup_append_mem _ _ hdmem, Bool.false_and]
    rw [if_neg (by simp [hfalse])]

/-- The database of the C9 witness: one journal and one stored paper whose DOI
is `10.1/x`. -/
def c9db : DB :=
  { journals := [{ id := 1, name := "J" }],
    papers := [{ id := 1, title := "Old", doi := some "10.1/x", journal_id := 1 }] }

/-- The record of the C9 witness: a different title carrying the stored DOI. -/
def c9rec : PaperData := { title := "New", journal := "J", doi := some "10.1/x" }

/-- Witness for C9: the conflicting record is rolled back and reported not-new,
and the DOI invariant is intact afterwards. -/
theorem doi_unique_invariant_witness :
    doiNodup ((save_paper c9db c9rec).1).papers = true ∧
    save_paper c9db c9rec = (c9db, false) :=
  ⟨doi_unique_invariant.1 c9db c9rec (by decide),
   doi_unique_invariant.2 c9db c9rec { id := 1, name := "J" }
     { id := 1, title := "Old", doi := some "10.1/x", journal_id := 1 } "10.1/x"
     (by decide) (by decide) (by decide) (by decide) (by decide)⟩

/-- The database of the C6 round trip: the JASA journal, no papers. -/
def c6db : DB :=
  { journals := [{ id := 1, name := "Journal of the American Statistical Association" }] }

/-- The record of the C6 round trip. -/
def c6rec : PaperData :=
  { title := "A Study of Nothing",
    journal := "Journal of the American Statistical Association",
    authors := ["A. Smith", "B. Jones", "others"] }

/-- Claim C6: saving a record with authors `["A. Smith", "B. Jones", "others"]`
(each attached with `author_order` = list index) and reading it back through the
query interface (ordered by `author_order`, then `format_authors`) returns the
authors in exactly the original order. -/
theorem roundtrip_author_order :
    (save_paper c6db c6rec).2 = true ∧
    apiAuthors (save_paper c6db c6rec).1 (stagedPaperId c6db)
      = ["A. Smith", "B. Jones", "others"] := by
  decide

/-- The database of the C4 counterexample: one journal and one stored paper
titled `T` with `publication_date = 100`. -/
def c4db : DB :=
  { journals := [{ id := 1, name := "J" }],
    papers := [{ id := 1, title := "T", publication_date := some 100, journal_id := 1 }] }

/-- The C4 record: same `(title, journal)` as the stored paper, with a non-null,
different incoming `publication_date = 200`. -/
def c4rec : PaperData := { title := "T", journal := "J", publication_date := some 200 }

/-- Counterexample to C4 as stated: on a `(title, journal)` match with a
non-null, differing incoming `publication_date`, `save_paper` does NOT reconcile
the stored date — it returns `(db, False)` and the stored paper still carries
the old date; no stored paper carries the incoming date. -/
theorem save_paper_no_reconcile_counterexample :
    c4rec.publication_date = some 200 ∧
    save_paper c4db c4rec = (c4db, false) ∧
    ((save_paper c4db c4rec).1.papers.map (fun p => p.publication_date)) = [some 100] ∧
    ¬ ∃ p, p ∈ (save_paper c4db c4rec).1.papers ∧ p.publication_date = some 200 := by
  decide

/-- Claim C4 (amended): on a `(title, journal)` match, `save_paper` performs no
update at all — not even of `publication_date` — returning `False` with the
database unchanged; the publication-date reconciliation on match is performed by
the sync endpoint (`sync_papers`), which changes only `publication_date`, and
does so exactly when the incoming value is present, parses, and differs from the
stored one. -/
theorem match_no_update_sync_reconciles :
    (∀ (db : DB) (r : PaperData) (j : JournalRow) (p : PaperRow),
        db.journals.find? (fun jj => jj.name == r.journal) = some j →
        db.papers.find? (fun q => q.title == r.title && q.journal_id == j.id) = some p →
        save_paper db r = (db, false)) ∧
    (∀ (p : PaperRow) (incoming : Option (Option Int)),
        ((syncUpdateExisting p incoming).1
          = { p with publication_date := (syncUpdateExisting p incoming).1.publication_date }) ∧
        ((syncUpdateExisting p incoming).2 = true ↔
          ∃ d, incoming = some (some d) ∧ p.publication_date ≠ some d) ∧
        (∀ d, incoming = some (some d) → p.publication_date ≠ some d →
          (syncUpdateExisting p incoming).1.publication_date = some d)) := by
  constructor
  · intro db r j p hj hp
    simp only [save_paper, save_paper_fault, hj, hp]
  · intro p incoming
    rcases incoming with _ | iv
    · simp [syncUpdateExisting]
    · rcases iv with _ | d
      · simp [syncUpdateExisting]
      · by_cases h : p.publication_date = some d
        · simp only [syncUpdateExisting, h, if_pos]
          refine ⟨by rw [← h], by simp [h], ?_⟩
          intro e he hne
          cases Option.some.inj (Option.some.inj he)
          exact absurd rfl hne
        · simp [syncUpdateExisting, h]

/-- Witness for the amended C4: the matching record of the counterexample is
skipped unchanged by `save_paper`, while the sync endpoint's match branch does
update the stored date `100` to the incoming `200`. -/
theorem match_no_update_sync_reconciles_witness :
    save_paper c4db c4rec = (c4db, false) ∧
    (syncUpdateExisting
        { id := 1, title := "T", publication_date := some 100, journal_id := 1 }
        (some (some 200))).1.publication_date = some 200 :=
  ⟨match_no_update_sync_reconciles.1 c4db c4rec { id := 1, name := "J" }
      { id := 1, title := "T", publication_date := some 100, journal_id := 1 }
      (by decide) (by decide),
   (match_no_update_sync_reconciles.2
      { id := 1, title := "T", publication_date := some 100, journal_id := 1 }
      (some (some 200))).2.2 200 rfl (by decide)⟩

/-- The per-journal summary entry that `trigger_scrape` owes scraper `s`:
the key is the journal name; the value is `"Error: <message>"` when the scraper
raised, and the added/found count string when it returned records. -/
def entryMatches (s : Scraper) (e : String × String) : Prop :=
  e.1 = s.journal_name ∧
  ((∃ msg, s.result = Except.error msg ∧ e.2 = "Error: " ++ msg) ∨
   (∃ (ps : List PaperData) (c : Nat), s.result = Except.ok ps ∧
      e.2 = "Added " ++ toString c ++ " new papers (found "
        ++ toString ps.length ++ " total)"))

/-- The scraper loop produces exactly one well-formed entry per scraper, in
order, whatever mix of failures occurs. -/
theorem runScrapers_entries (ss : List Scraper) :
    ∀ db : DB, List.Forall₂ entryMatches ss (runScrapers db ss).2.1 := by
  induction ss with
  | nil => intro db; exact List.Forall₂.nil
  | cons s rest ih =>
    intro db
    rcases hres : s.result with msg | ps <;> simp only [runScrapers, hres]
    · exact List.Forall₂.cons ⟨rfl, Or.inl ⟨msg, hres, rfl⟩⟩ (ih db)
    · exact List.Forall₂.cons ⟨rfl, Or.inr ⟨ps, (saveAll db ps).2, hres, rfl⟩⟩
        (ih (saveAll db ps).1)

/-- Claim C8: the orchestrator isolates per-journal failures — for every set of
scrapers (any of which may raise), the returned summary contains, in order, one
entry per scraper of the form `"Added N new papers (found M total)"` or
`"Error: <message>"`, followed by exactly one aggregate `"Summary"` entry; the
call itself always returns this normal response. -/
theorem scrape_failure_isolation (db : DB) (ss : List Scraper) :
    List.Forall₂ entryMatches ss ((trigger_scrape db ss).2.1.take ss.length) ∧
    (trigger_scrape db ss).2.1.length = ss.length + 1 ∧
    ∃ n : Nat, (trigger_scrape db ss).2.1.getLast?
      = some ("Summary", "Total: " ++ toString n ++ " new papers added across all journals") := by
  have hrun := runScrapers_entries ss db
  have hlen : (runScrapers db ss).2.1.length = ss.length := hrun.length_eq.symm
  refine ⟨?_, ?_, ?_⟩
  · simp only [trigger_scrape]
    rw [← hlen, List.take_left]
    exact hrun
  · simp only [trigger_scrape]
    rw [List.length_append, hlen]
    rfl
  · exact ⟨(runScrapers db ss).2.2, by simp only [trigger_scrape]; simp⟩
